import Mathlib

/-!
Verification development for the memorypilot MCP protocol adapter
(internal/mcp/server.go) and the boundary of its record store.

Go strings are modelled as byte lists (`GoStr`); the literals appearing in
the adapter are all ASCII, so `Char.toNat` of each character is exactly its
UTF-8 byte. JSON values (used for correlation identifiers and tool
arguments) are modelled by the inductive `Jval`. External collaborators
(the Ollama embedder, the clock, the ULID generator) are inputs.

The record store (internal/store) and models package are not part of the
sources under verification; their operations are modelled from the spec and
marked as such in their doc comments.
-/

/-- A Go string, as its list of bytes (`len` in Go counts bytes). -/
abbrev GoStr := List Nat

/-- Byte list of an ASCII literal (every literal used here is ASCII, where
`Char.toNat` coincides with the UTF-8 byte). -/
def gostr (s : String) : GoStr := s.data.map Char.toNat

/-- A JSON value, as decoded from a wire line. Object keys are byte strings. -/
inductive Jval where
  | null : Jval
  | boolean : Bool → Jval
  | num : Int → Jval
  | str : GoStr → Jval
  | arr : List Jval → Jval
  | obj : List (GoStr × Jval) → Jval

/-- A Go `interface{}` value holding a decoded JSON id: `none` is the nil
interface (which `encoding/json` produces both for an absent `id` member and
for a JSON `null`). -/
abbrev GoId := Option Jval

/-- Model of `json.Unmarshal` decoding the `id` member into an `interface{}`
field: an absent member leaves the field nil, JSON `null` decodes to the nil
interface, and any other value is stored as is. -/
def decodeIdField : Option Jval → GoId
  | none => none
  | some Jval.null => none
  | some v => some v

/-- models.MemoryScope: the code uses `MemoryScopePersonal`; the spec names
personal vs project visibility. -/
inductive MemoryScope where
  | personal : MemoryScope
  | project : MemoryScope
deriving DecidableEq

/-- models.SourceType: the code uses `SourceTypeManual`; the spec names
`manual|observed|...`. -/
inductive SourceType where
  | manual : SourceType
  | observed : SourceType
deriving DecidableEq

/-- models.Source: provenance record `{type, reference, timestamp}`.
Timestamps are clock readings, modelled as naturals. -/
structure Source where
  type : SourceType
  reference : GoStr
  timestamp : Nat
deriving DecidableEq

/-- An embedding vector (`[]float32` in Go; its numeric contents are never
inspected by the adapter, so components are modelled as integers). -/
abbrev Vec := List Int

/-- models.Memory, with the fields the adapter constructs and the store
persists. `type` is a string in Go (`models.MemoryType` is a string type and
the adapter casts an arbitrary request string into it). -/
structure Memory where
  id : GoStr
  type : GoStr
  content : GoStr
  summary : GoStr
  scope : MemoryScope
  source : Source
  confidence : ℚ
  importance : ℚ
  topics : List GoStr
  embedding : Option Vec
  createdAt : Nat
  lastAccessedAt : Nat
  accessCount : Nat
deriving DecidableEq

/-- models.RecallRequest, with the fields the adapter sets. -/
structure RecallRequest where
  query : GoStr
  limit : Int
deriving DecidableEq

/-- truncateStr from server.go: returns `s` unchanged when its byte length is
at most `maxLen`, otherwise the first `maxLen-3` bytes followed by `...`. -/
def truncateStr (s : GoStr) (maxLen : Nat) : GoStr :=
  if s.length ≤ maxLen then s else s.take (maxLen - 3) ++ gostr "..."

/-- The memory literal built by handleRemember (server.go lines 278-296):
`now` is the single `time.Now()` reading, `freshId` the generated ULID,
`ty` the (already defaulted) type string. -/
def rememberedMemory (content ty : GoStr) (topics : List GoStr)
    (freshId : GoStr) (now : Nat) : Memory :=
  { id := freshId
    type := ty
    content := content
    summary := truncateStr content 100
    scope := MemoryScope.personal
    source := { type := SourceType.manual, reference := gostr "mcp", timestamp := now }
    confidence := 1
    importance := 1
    topics := topics
    embedding := none
    createdAt := now
    lastAccessedAt := now
    accessCount := 0 }

/-! ## Record store boundary (spec-modelled) -/

/-- Store-level errors named by the spec's error taxonomy (section 7). -/
inductive StoreErr where
  | validation : StoreErr
  | notFound : StoreErr
  | invalidQuery : StoreErr
deriving DecidableEq

/-- Error message text carried to the protocol layer by `err.Error()`. -/
def errMsg : StoreErr → GoStr
  | StoreErr.validation => gostr "ValidationError"
  | StoreErr.notFound => gostr "NotFoundError"
  | StoreErr.invalidQuery => gostr "InvalidQueryError"

/-- The persisted memories, in creation order. -/
abbrev StoreState := List Memory

/-- The closed enumeration of valid memory types (section 3 of the spec; the
same six strings appear in the adapter's tool schema). -/
def memoryTypes : List GoStr :=
  [gostr "decision", gostr "pattern", gostr "fact",
   gostr "preference", gostr "mistake", gostr "learning"]

/-- Whether a type string belongs to the closed enumeration. -/
def validMemoryType (t : GoStr) : Bool := memoryTypes.contains t

/-- Modelled from the spec: `CreateMemory` of internal/store (not under the
verified sources). Per section 4.1, `create(memory) -> id` fails with
`ValidationError` if `content` is empty or `type` is not in the closed
enumeration; otherwise persists atomically. -/
def CreateMemory (m : Memory) (st : StoreState) : Except StoreErr StoreState :=
  if m.content.isEmpty || !(validMemoryType m.type) then Except.error StoreErr.validation
  else Except.ok (st ++ [m])

/-- Modelled from the spec: `UpdateMemoryEmbedding` of internal/store (not
under the verified sources). Per section 4.1, fails with `NotFoundError` if
the id is unknown; otherwise overwrites the embedding field only. -/
def UpdateMemoryEmbedding (mid : GoStr) (v : Vec) (st : StoreState) :
    Except StoreErr StoreState :=
  if st.any fun m => m.id == mid then
    Except.ok (st.map fun m => if m.id == mid then { m with embedding := some v } else m)
  else Except.error StoreErr.notFound

/-- Modelled from the spec: the effective truncation limit of the search
engine (section 4.2 step 5): default 5 when the limit is non-positive. -/
def effLimit (l : Int) : Nat := if l ≤ 0 then 5 else l.toNat

/-- Modelled from the spec: `Recall` of internal/store (not under the
verified sources): keyword-only retrieval, `InvalidQueryError` on an empty
query, otherwise the lexical ranking truncated to the effective limit. The
lexical ranking itself is a parameter `rank` (the spec leaves its scoring
formula open). -/
def Recall (rank : GoStr → StoreState → List Memory) (req : RecallRequest)
    (st : StoreState) : Except StoreErr (List Memory) :=
  if req.query.isEmpty then Except.error StoreErr.invalidQuery
  else Except.ok ((rank req.query st).take (effLimit req.limit))

/-- Modelled from the spec: `HybridSearch` of internal/store (not under the
verified sources): fused keyword/semantic retrieval, `InvalidQueryError` on
an empty query (section 4.2 error conditions), otherwise the fused ranking
truncated to the effective limit. The fused ranking is a parameter `hrank`. -/
def HybridSearch (hrank : GoStr → Vec → StoreState → List Memory) (q : GoStr)
    (v : Vec) (l : Int) (st : StoreState) : Except StoreErr (List Memory) :=
  if q.isEmpty then Except.error StoreErr.invalidQuery
  else Except.ok ((hrank q v st).take (effLimit l))

/-- Aggregate statistics (models.Stats), as used by handleStatus. -/
structure StatsV where
  totalMemories : Nat
  projectCount : Nat
  byType : List (GoStr × Nat)
deriving DecidableEq

/-- Modelled from the spec: `GetStats` of internal/store (not under the
verified sources): total memory count, distinct scope count, count grouped
by type (section 3, Stats). -/
def GetStats (st : StoreState) : StatsV :=
  { totalMemories := st.length
    projectCount := ((st.map fun m => m.scope).dedup).length
    byType := memoryTypes.map fun t => (t, (st.filter fun m => m.type == t).length) }

/-! ## JSON argument decoding (encoding/json at the adapter boundary) -/

/-- A raw JSON payload (`json.RawMessage`): `none` when the bytes are not
syntactically valid JSON (in which case `json.Unmarshal` validates first and
writes nothing), otherwise the parsed value. -/
abbrev RawMsg := Option Jval

/-- Looks up an object member by key (exact match; the adapter's keys are
all distinct lowercase names). -/
def lookupField (k : GoStr) (fs : List (GoStr × Jval)) : Option Jval :=
  match fs.find? fun p => p.1 == k with
  | some p => some p.2
  | none => none

/-- Decoding one JSON member into a Go `string` field, returning the field
value and whether a type error was recorded: an absent member or JSON null
leaves the zero value with no error; a non-string value leaves the zero
value and records an `UnmarshalTypeError` (encoding/json skips the ill-typed
value and completes the rest as best it can). -/
def decodeStrField : Option Jval → GoStr × Bool
  | none => ([], false)
  | some Jval.null => ([], false)
  | some (Jval.str s) => (s, false)
  | some _ => ([], true)

/-- Decoding one JSON member into a Go `int` field (same conventions as
`decodeStrField`). -/
def decodeIntField : Option Jval → Int × Bool
  | none => (0, false)
  | some Jval.null => (0, false)
  | some (Jval.num n) => (n, false)
  | some _ => (0, true)

/-- Decoding one JSON member into a Go `bool` field (same conventions as
`decodeStrField`). -/
def decodeBoolField : Option Jval → Bool × Bool
  | none => (false, false)
  | some Jval.null => (false, false)
  | some (Jval.boolean b) => (b, false)
  | some _ => (false, true)

/-- Decoding one JSON member into a Go `[]string` field: each array element
decodes as a string member does; a non-array value leaves the zero value
(nil slice) and records a type error. -/
def decodeStrArrField : Option Jval → List GoStr × Bool
  | none => ([], false)
  | some Jval.null => ([], false)
  | some (Jval.arr xs) =>
      (xs.map fun x => (decodeStrField (some x)).1,
       xs.any fun x => (decodeStrField (some x)).2)
  | some _ => ([], true)

/-- The recall tool's argument struct in handleRecall. -/
structure RecallArgs where
  query : GoStr
  limit : Int
  semantic : Bool
deriving DecidableEq

/-- The remember tool's argument struct in handleRemember. -/
structure RememberArgs where
  content : GoStr
  type : GoStr
  topics : List GoStr
deriving DecidableEq

/-- `json.Unmarshal(args, &params)` for the recall argument struct: the
resulting struct value and whether an error was returned (the adapter
discards the error). Syntactically invalid bytes or a non-object value leave
the struct at its zero value with an error; an object is decoded field by
field, ill-typed members being skipped with an error recorded. -/
def unmarshalRecallArgs : RawMsg → RecallArgs × Bool
  | none => ({ query := [], limit := 0, semantic := false }, true)
  | some Jval.null => ({ query := [], limit := 0, semantic := false }, false)
  | some (Jval.obj fs) =>
      let q := decodeStrField (lookupField (gostr "query") fs)
      let l := decodeIntField (lookupField (gostr "limit") fs)
      let sm := decodeBoolField (lookupField (gostr "semantic") fs)
      ({ query := q.1, limit := l.1, semantic := sm.1 }, q.2 || l.2 || sm.2)
  | some _ => ({ query := [], limit := 0, semantic := false }, true)

/-- `json.Unmarshal(args, &params)` for the remember argument struct (same
conventions as `unmarshalRecallArgs`). -/
def unmarshalRememberArgs : RawMsg → RememberArgs × Bool
  | none => ({ content := [], type := [], topics := [] }, true)
  | some Jval.null => ({ content := [], type := [], topics := [] }, false)
  | some (Jval.obj fs) =>
      let c := decodeStrField (lookupField (gostr "content") fs)
      let t := decodeStrField (lookupField (gostr "type") fs)
      let tp := decodeStrArrField (lookupField (gostr "topics") fs)
      ({ content := c.1, type := t.1, topics := tp.1 }, c.2 || t.2 || tp.2)
  | some _ => ({ content := [], type := [], topics := [] }, true)

/-! ## JSON-RPC protocol layer (server.go) -/

/-- RPCError from server.go. -/
structure RPCError where
  code : Int
  message : GoStr
deriving DecidableEq

/-- The `text` strings the tool handlers format with `fmt.Sprintf`,
represented structurally by the data each distinct format builds from (the
byte-level rendering is not inspected by any property). -/
inductive ToolText where
  | recallEmpty : GoStr → ToolText
  | recallFound : List Memory → ToolText
  | remembered : GoStr → GoStr → GoStr → ToolText
  | statusText : StatsV → ToolText
deriving DecidableEq

/-- A JSON-RPC result payload: the two static manifests, or a tool call's
`{"content":[{"type":"text","text":...}]}` body. -/
inductive RespPayload where
  | initializeResult : RespPayload
  | toolsListResult : RespPayload
  | toolText : ToolText → RespPayload
deriving DecidableEq

/-- JSONRPCResponse from server.go (the constant `jsonrpc` member omitted).
The wire encoding of `id` is `omitempty`: a nil id is omitted. -/
structure Response where
  id : GoId
  result : Option RespPayload
  rpcErr : Option RPCError

/-- sendResult from server.go. -/
def sendResult (rid : GoId) (p : RespPayload) : Response :=
  { id := rid, result := some p, rpcErr := none }

/-- sendError from server.go. -/
def sendError (rid : GoId) (code : Int) (msg : GoStr) : Response :=
  { id := rid, result := none, rpcErr := some { code := code, message := msg } }

/-- The wire-level `id` member of an encoded response: the struct tag
`json:"id,omitempty"` omits the member (`none`) exactly when the Go
interface value is nil. -/
def respIdWire (r : Response) : Option Jval := r.id

/-- ToolsCallParams: the `{name, arguments}` body of a tools/call request.
`arguments` stays raw (`json.RawMessage`) until the tool handler decodes it. -/
structure ToolsCallParams where
  name : GoStr
  arguments : RawMsg

/-- JSONRPCRequest from server.go, after wire decoding: `params` is `none`
when `json.Unmarshal(req.Params, &params)` in handleToolsCall would fail
(absent or undecodable params). -/
structure JSONRPCRequest where
  id : GoId
  method : GoStr
  params : Option ToolsCallParams

/-- The embedder's outcome for one text: `Except.ok (some v)` is a non-nil
vector with nil error (the only case the adapter treats as success);
`Except.ok none` is a nil vector with nil error; `Except.error` is a non-nil
error. -/
abbrev EmbedRes := Except GoStr (Option Vec)

/-- The adapter's external collaborators: the Ollama embedder and the two
ranking functions the spec leaves open inside the store's search paths. -/
structure Deps where
  embed : GoStr → EmbedRes
  rank : GoStr → StoreState → List Memory
  hrank : GoStr → Vec → StoreState → List Memory

/-- Per-call ambient inputs of handleRemember: the `time.Now()` reading and
the generated ULID string. -/
structure CallEnv where
  now : Nat
  freshId : GoStr

/-- The search dispatch inside handleRecall (server.go lines 225-235): try
the embedder on the raw query; a non-nil vector with nil error selects
HybridSearch, anything else falls back to the store's keyword-only Recall,
both with the same query and (already defaulted) limit. -/
def recallSearch (d : Deps) (q : GoStr) (l : Int) (st : StoreState) :
    Except StoreErr (List Memory) :=
  match d.embed q with
  | Except.ok (some v) => HybridSearch d.hrank q v l st
  | Except.ok none => Recall d.rank { query := q, limit := l } st
  | Except.error _ => Recall d.rank { query := q, limit := l } st

/-- The limit defaulting of handleRecall (server.go lines 218-220): exactly
a zero limit is replaced by 5. -/
def adapterLimit (l : Int) : Int := if l = 0 then 5 else l

/-- handleRecall from server.go: decode the arguments (error discarded),
default a zero limit to 5, run the search dispatch, and send either a
`-32000` error or the formatted result text. -/
def handleRecall (d : Deps) (rid : GoId) (args : RawMsg) (st : StoreState) :
    Response :=
  let p := (unmarshalRecallArgs args).1
  match recallSearch d p.query (adapterLimit p.limit) st with
  | Except.error e => sendError rid (-32000) (errMsg e)
  | Except.ok ms =>
      if ms.isEmpty then sendResult rid (RespPayload.toolText (ToolText.recallEmpty p.query))
      else sendResult rid (RespPayload.toolText (ToolText.recallFound ms))

/-- The error text `fmt.Sprintf("Failed to save memory: %v", err)`. -/
def failedSaveMsg (e : StoreErr) : GoStr := gostr "Failed to save memory: " ++ errMsg e

/-- The type defaulting of handleRemember (server.go lines 273-275): an
empty type string is replaced by "fact". -/
def rememberEffType (p : RememberArgs) : GoStr :=
  if p.type.isEmpty then gostr "fact" else p.type

/-- The memory handleRemember builds for a given raw arguments payload and
call environment. -/
def rememberBuilt (args : RawMsg) (env : CallEnv) : Memory :=
  let p := (unmarshalRememberArgs args).1
  rememberedMemory p.content (rememberEffType p) p.topics env.freshId env.now

/-- handleRemember from server.go: decode the arguments (error discarded),
default an empty type to "fact", build the memory literal, persist it (a
store error becomes a `-32000` response), then best-effort embed the content
and update the embedding (both the embedder's failure and the update's error
are discarded), and send the success text. -/
def handleRemember (d : Deps) (env : CallEnv) (rid : GoId) (args : RawMsg)
    (st : StoreState) : Response × StoreState :=
  let p := (unmarshalRememberArgs args).1
  let ty := rememberEffType p
  let m := rememberBuilt args env
  match CreateMemory m st with
  | Except.error e => (sendError rid (-32000) (failedSaveMsg e), st)
  | Except.ok st1 =>
      let st2 :=
        match d.embed m.content with
        | Except.ok (some v) =>
            match UpdateMemoryEmbedding m.id v st1 with
            | Except.ok stU => stU
            | Except.error _ => st1
        | _ => st1
      (sendResult rid (RespPayload.toolText (ToolText.remembered p.content ty m.id)), st2)

/-- handleStatus from server.go: format the store's aggregate statistics
(the spec-modelled `GetStats` cannot fail, so the `-32000` branch of the Go
code is unreachable here). -/
def handleStatus (rid : GoId) (st : StoreState) : Response :=
  sendResult rid (RespPayload.toolText (ToolText.statusText (GetStats st)))

/-- handleToolsCall from server.go: a failed decode of the `{name,
arguments}` body yields `-32602 Invalid params`; otherwise dispatch on the
tool name, unknown names yielding `-32602 Unknown tool`. -/
def handleToolsCall (d : Deps) (env : CallEnv) (req : JSONRPCRequest)
    (st : StoreState) : Response × StoreState :=
  match req.params with
  | none => (sendError req.id (-32602) (gostr "Invalid params"), st)
  | some p =>
      if p.name = gostr "memorypilot_recall" then
        (handleRecall d req.id p.arguments st, st)
      else if p.name = gostr "memorypilot_remember" then
        handleRemember d env req.id p.arguments st
      else if p.name = gostr "memorypilot_status" then
        (handleStatus req.id st, st)
      else (sendError req.id (-32602) (gostr "Unknown tool"), st)

/-- handleRequest from server.go: dispatch on the method name; unknown
methods yield `-32601 Method not found`. Every branch threads the request's
id into the response. -/
def handleRequest (d : Deps) (env : CallEnv) (req : JSONRPCRequest)
    (st : StoreState) : Response × StoreState :=
  if req.method = gostr "initialize" then
    (sendResult req.id RespPayload.initializeResult, st)
  else if req.method = gostr "tools/list" then
    (sendResult req.id RespPayload.toolsListResult, st)
  else if req.method = gostr "tools/call" then
    handleToolsCall d env req st
  else (sendError req.id (-32601) (gostr "Method not found"), st)

/-- One inbound line of the request loop, after `json.Unmarshal([]byte(line),
&req)`: `none` is a line that fails to decode; each line carries the ambient
inputs (clock reading, fresh ULID) of its handling. -/
abbrev Line := Option JSONRPCRequest × CallEnv

/-- The read loop of Run (server.go lines 47-65): an undecodable line emits
`sendError(nil, -32700, "Parse error")` and the loop continues; a decoded
request is handled and its one response emitted; the loop ends at end of
input (EOF returns nil). -/
def runLoop (d : Deps) (st : StoreState) : List Line → List Response × StoreState
  | [] => ([], st)
  | (none, _) :: rest =>
      let r := runLoop d st rest
      (sendError none (-32700) (gostr "Parse error") :: r.1, r.2)
  | (some req, env) :: rest =>
      let h := handleRequest d env req st
      let r := runLoop d h.2 rest
      (h.1 :: r.1, r.2)

/-- Run from server.go: the unsolicited server-info notification (sent with
a nil id before the loop) followed by the loop's responses. -/
def run (d : Deps) (st : StoreState) (lines : List Line) :
    List Response × StoreState :=
  let r := runLoop d st lines
  (sendResult none RespPayload.initializeResult :: r.1, r.2)

/-- A concrete dependency bundle whose embedder always returns a nil vector
with nil error (gateway unavailable) and whose rankings are empty. -/
def depsNoEmbed : Deps :=
  { embed := fun _ => Except.ok none
    rank := fun _ _ => []
    hrank := fun _ _ _ => [] }

/-- A concrete call environment. -/
def env0 : CallEnv := { now := 7, freshId := gostr "01HZX" }

/-! ## Theorems -/

/-- Claim C5: for every content string, content whose byte length is at most
the bound 100 is copied verbatim into the summary; longer content yields a
summary of length exactly 100 that is its first 97 bytes followed by the
ellipsis marker "...". -/
theorem truncate_summary_spec (s : GoStr) :
    (s.length ≤ 100 → truncateStr s 100 = s) ∧
    (100 < s.length →
      truncateStr s 100 = s.take 97 ++ gostr "..." ∧
      (truncateStr s 100).length = 100) := by
  constructor
  · intro h
    simp [truncateStr, h]
  · intro h
    have hn : ¬ s.length ≤ 100 := by omega
    constructor
    · simp [truncateStr, hn]
    · simp only [truncateStr, hn, if_false, List.length_append, List.length_take, gostr]
      simp
      omega

/-- Witness for C5 at a 2-byte and a 101-byte content. -/
theorem truncate_summary_spec_witness :
    (truncateStr (gostr "hi") 100 = gostr "hi") ∧
    (truncateStr (List.replicate 101 0) 100 =
        (List.replicate 101 0).take 97 ++ gostr "..." ∧
      (truncateStr (List.replicate 101 0) 100).length = 100) :=
  ⟨(truncate_summary_spec (gostr "hi")).1 (by decide),
   (truncate_summary_spec (List.replicate 101 0)).2 (by decide)⟩

/-- Claim C10: every memory built by the remember operation has confidence 1,
importance 1, access count 0, personal scope, a manual "mcp" source, no
embedding yet, and created-at, last-accessed-at and source timestamp all
equal to the single clock reading. -/
theorem remembered_memory_defaults (content ty : GoStr) (topics : List GoStr)
    (freshId : GoStr) (now : Nat) :
    (rememberedMemory content ty topics freshId now).confidence = 1 ∧
    (rememberedMemory content ty topics freshId now).importance = 1 ∧
    (rememberedMemory content ty topics freshId now).accessCount = 0 ∧
    (rememberedMemory content ty topics freshId now).scope = MemoryScope.personal ∧
    (rememberedMemory content ty topics freshId now).source =
      { type := SourceType.manual, reference := gostr "mcp", timestamp := now } ∧
    (rememberedMemory content ty topics freshId now).embedding = none ∧
    (rememberedMemory content ty topics freshId now).createdAt = now ∧
    (rememberedMemory content ty topics freshId now).lastAccessedAt = now ∧
    (rememberedMemory content ty topics freshId now).id = freshId :=
  ⟨rfl, rfl, rfl, rfl, rfl, rfl, rfl, rfl, rfl⟩

/-- Claim C1: when the embedding gateway returns no vector (an error, or a
nil vector with nil error), the adapter's search result is exactly the
record store's keyword-only recall at the same query and limit; when it
returns a vector, the adapter invokes the hybrid search instead. -/
theorem recall_fallback_refines (d : Deps) (q : GoStr) (l : Int) (st : StoreState) :
    ((d.embed q = Except.ok none ∨ ∃ e, d.embed q = Except.error e) →
      recallSearch d q l st = Recall d.rank { query := q, limit := l } st) ∧
    (∀ v, d.embed q = Except.ok (some v) →
      recallSearch d q l st = HybridSearch d.hrank q v l st) := by
  constructor
  · rintro (h | ⟨e, h⟩) <;> simp [recallSearch, h]
  · intro v h
    simp [recallSearch, h]

/-- Witness for C1 at an unavailable gateway and at a gateway returning a
vector. -/
theorem recall_fallback_refines_witness :
    recallSearch depsNoEmbed (gostr "caching") 5 [] =
      Recall depsNoEmbed.rank { query := gostr "caching", limit := 5 } [] ∧
    recallSearch
        { depsNoEmbed with embed := fun _ => Except.ok (some [1]) }
        (gostr "caching") 5 [] =
      HybridSearch { depsNoEmbed with embed := fun _ => Except.ok (some [1]) }.hrank
        (gostr "caching") [1] 5 [] :=
  ⟨(recall_fallback_refines depsNoEmbed (gostr "caching") 5 []).1 (Or.inl rfl),
   (recall_fallback_refines
      { depsNoEmbed with embed := fun _ => Except.ok (some [1]) }
      (gostr "caching") 5 []).2 [1] rfl⟩

/-- Claim C4: a non-positive (or unspecified, which decodes to zero) limit
results in an effective truncation limit of 5: the adapter replaces zero by
5, the store's search replaces any remaining non-positive limit by 5, and
the keyword recall of a non-empty query truncates its ranking to 5. -/
theorem limit_defaults_to_five (l : Int) (h : l ≤ 0) :
    effLimit (adapterLimit l) = 5 ∧
    (∀ (rank : GoStr → StoreState → List Memory) (q : GoStr) (st : StoreState),
      ¬ q.isEmpty →
      Recall rank { query := q, limit := adapterLimit l } st =
        Except.ok ((rank q st).take 5)) := by
  have h5 : effLimit (adapterLimit l) = 5 := by
    rcases eq_or_ne l 0 with h0 | h0
    · simp [adapterLimit, effLimit, h0]
    · have hlt : l < 0 := lt_of_le_of_ne h h0
      simp only [adapterLimit, if_neg h0, effLimit, if_pos h]
  refine ⟨h5, ?_⟩
  intro rank q st hq
  simp [Recall, hq, h5]

/-- Witness for C4 at the supplied limits 0 and -3. -/
theorem limit_defaults_to_five_witness :
    effLimit (adapterLimit 0) = 5 ∧
    effLimit (adapterLimit (-3)) = 5 ∧
    Recall depsNoEmbed.rank { query := gostr "x", limit := adapterLimit (-3) } [] =
      Except.ok ((depsNoEmbed.rank (gostr "x") []).take 5) :=
  ⟨(limit_defaults_to_five 0 (by decide)).1,
   (limit_defaults_to_five (-3) (by decide)).1,
   (limit_defaults_to_five (-3) (by decide)).2 depsNoEmbed.rank (gostr "x") [] (by decide)⟩

/-- An empty query makes both search paths fail with InvalidQueryError,
whichever outcome the embedder produces. -/
theorem recallSearch_emptyQuery (d : Deps) (l : Int) (st : StoreState) :
    recallSearch d [] l st = Except.error StoreErr.invalidQuery := by
  unfold recallSearch
  split <;> simp [HybridSearch, Recall]

/-- Claim C8: a recall whose decoded query is the empty string fails with
InvalidQueryError, surfaced as a -32000 protocol error; any non-empty query
is never rejected by the search, whatever the limit (defensive defaulting). -/
theorem empty_query_invalid (d : Deps) (rid : GoId) (args : RawMsg)
    (st : StoreState) :
    ((unmarshalRecallArgs args).1.query = [] →
      handleRecall d rid args st =
        sendError rid (-32000) (errMsg StoreErr.invalidQuery)) ∧
    (∀ (q : GoStr) (l : Int), ¬ q.isEmpty = true →
      ∃ ms, recallSearch d q l st = Except.ok ms) := by
  constructor
  · intro h
    simp only [handleRecall, h, recallSearch_emptyQuery]
  · intro q l hq
    rcases hE : d.embed q with e | o
    · refine ⟨(d.rank q st).take (effLimit l), ?_⟩
      simp [recallSearch, hE, Recall, hq]
    · cases o with
      | none =>
          refine ⟨(d.rank q st).take (effLimit l), ?_⟩
          simp [recallSearch, hE, Recall, hq]
      | some v =>
          refine ⟨(d.hrank q v st).take (effLimit l), ?_⟩
          simp [recallSearch, hE, HybridSearch, hq]

/-- Witness for C8 at an empty-object argument payload (empty query) and at
the non-empty query "x". -/
theorem empty_query_invalid_witness :
    handleRecall depsNoEmbed none (some (Jval.obj [])) [] =
      sendError none (-32000) (errMsg StoreErr.invalidQuery) ∧
    ∃ ms, recallSearch depsNoEmbed (gostr "x") 3 [] = Except.ok ms :=
  ⟨(empty_query_invalid depsNoEmbed none (some (Jval.obj [])) []).1 rfl,
   (empty_query_invalid depsNoEmbed none (some (Jval.obj [])) []).2
     (gostr "x") 3 (by decide)⟩

/-- Every response handleRecall sends carries the request id it was given. -/
theorem handleRecall_id (d : Deps) (rid : GoId) (args : RawMsg)
    (st : StoreState) : (handleRecall d rid args st).id = rid := by
  simp only [handleRecall]
  split
  · rfl
  · split <;> rfl

/-- Every response handleRemember sends carries the request id it was given. -/
theorem handleRemember_id (d : Deps) (env : CallEnv) (rid : GoId)
    (args : RawMsg) (st : StoreState) :
    (handleRemember d env rid args st).1.id = rid := by
  simp only [handleRemember]
  split <;> rfl

/-- Every response handleRequest sends carries the request's decoded id. -/
theorem handleRequest_id (d : Deps) (env : CallEnv) (req : JSONRPCRequest)
    (st : StoreState) : (handleRequest d env req st).1.id = req.id := by
  simp only [handleRequest]
  split
  · rfl
  split
  · rfl
  split
  · simp only [handleToolsCall]
    split
    · rfl
    split
    · exact handleRecall_id ..
    split
    · exact handleRemember_id ..
    split
    · rfl
    · rfl
  · rfl

/-- Claim C2 (amended): every response carries back the request's decoded
correlation identifier unchanged, and a non-null identifier is echoed as is;
but the wire decoding maps both an absent and a null identifier to the nil
interface, and the response's `omitempty` id member then renders a null
request identifier as an absent member, not as null. -/
theorem response_id_echo (d : Deps) (env : CallEnv) (req : JSONRPCRequest)
    (st : StoreState) :
    respIdWire ((handleRequest d env req st).1) = req.id ∧
    decodeIdField none = none ∧
    decodeIdField (some Jval.null) = none ∧
    (∀ v : Jval, v ≠ Jval.null → decodeIdField (some v) = some v) := by
  refine ⟨handleRequest_id d env req st, rfl, rfl, ?_⟩
  intro v hv
  cases v with
  | null => exact absurd rfl hv
  | boolean b => rfl
  | num n => rfl
  | str s => rfl
  | arr xs => rfl
  | obj fs => rfl

/-- Witness for C2 at a request carrying the numeric identifier 3. -/
theorem response_id_echo_witness :
    respIdWire ((handleRequest depsNoEmbed env0
      { id := decodeIdField (some (Jval.num 3)), method := gostr "initialize",
        params := none } []).1) = some (Jval.num 3) := by
  have h := response_id_echo depsNoEmbed env0
    { id := decodeIdField (some (Jval.num 3)), method := gostr "initialize",
      params := none } []
  rw [h.1]
  exact h.2.2.2 (Jval.num 3) (fun hc => Jval.noConfusion hc)

/-- Counterexample for C2 as stated: a null identifier in the request does
not yield a null identifier in the response; the decoded id is the nil
interface and the `omitempty` encoding omits the member entirely. -/
theorem response_id_null_cex :
    decodeIdField (some Jval.null) = none ∧
    respIdWire ((handleRequest depsNoEmbed env0
      { id := decodeIdField (some Jval.null), method := gostr "initialize",
        params := none } []).1) = none ∧
    (none : Option Jval) ≠ some Jval.null := by
  refine ⟨rfl, ?_, fun h => Option.noConfusion h⟩
  exact handleRequest_id depsNoEmbed env0
    { id := decodeIdField (some Jval.null), method := gostr "initialize",
      params := none } []

/-- Claim C7: an input line that fails to decode yields the -32700 parse
error response (with nil id) and the loop moves on to the rest of the input
unchanged; every input line is answered by exactly one response, so a later
valid line is still processed. -/
theorem parse_error_continues (d : Deps) (st : StoreState) (env : CallEnv)
    (rest : List Line) :
    runLoop d st ((none, env) :: rest) =
      (sendError none (-32700) (gostr "Parse error") :: (runLoop d st rest).1,
       (runLoop d st rest).2) ∧
    (∀ (lines : List Line) (s : StoreState),
      (runLoop d s lines).1.length = lines.length) := by
  constructor
  · rfl
  · intro lines
    induction lines with
    | nil => intro s; rfl
    | cons hd tl ih =>
        intro s
        rcases hd with ⟨o, e⟩
        cases o <;> simp [runLoop, ih]

/-- A successful create appends exactly the given memory. -/
theorem CreateMemory_ok {m : Memory} {st st1 : StoreState}
    (hm : CreateMemory m st = Except.ok st1) : st1 = st ++ [m] := by
  unfold CreateMemory at hm
  split at hm
  · exact absurd hm (by simp)
  · exact (Except.ok.inj hm).symm

/-- A remember argument payload carrying only the content "x". -/
def argsContentX : RawMsg :=
  some (Jval.obj [(gostr "content", Jval.str (gostr "x"))])

/-- Claim C6: once the create succeeded, a failing best-effort embedding step
(nil vector or gateway error) changes nothing: the success response naming
the assigned id is still sent and the created memory is in the final store. -/
theorem embed_failure_write_stands (d : Deps) (env : CallEnv) (rid : GoId)
    (args : RawMsg) (st st1 : StoreState)
    (hm : CreateMemory (rememberBuilt args env) st = Except.ok st1)
    (he : d.embed (rememberBuilt args env).content = Except.ok none ∨
          ∃ e, d.embed (rememberBuilt args env).content = Except.error e) :
    handleRemember d env rid args st =
      (sendResult rid (RespPayload.toolText (ToolText.remembered
        (unmarshalRememberArgs args).1.content
        (rememberEffType (unmarshalRememberArgs args).1) env.freshId)), st1) ∧
    rememberBuilt args env ∈ st1 := by
  constructor
  · rcases he with he | ⟨e, he⟩
    · simp only [handleRemember, hm, he]
      rfl
    · simp only [handleRemember, hm, he]
      rfl
  · rw [CreateMemory_ok hm]
    simp

/-- Witness for C6 at an unavailable gateway and the content "x". -/
theorem embed_failure_write_stands_witness :
    handleRemember depsNoEmbed env0 none argsContentX [] =
      (sendResult none (RespPayload.toolText (ToolText.remembered
        (unmarshalRememberArgs argsContentX).1.content
        (rememberEffType (unmarshalRememberArgs argsContentX).1) env0.freshId)),
       [rememberBuilt argsContentX env0]) ∧
    rememberBuilt argsContentX env0 ∈ [rememberBuilt argsContentX env0] :=
  embed_failure_write_stands depsNoEmbed env0 none argsContentX []
    [rememberBuilt argsContentX env0] rfl (Or.inl rfl)

/-- A remember argument payload with content "x" and the explicit type "",
a string outside the closed type enumeration. -/
def argsTypeEmpty : RawMsg :=
  some (Jval.obj [(gostr "content", Jval.str (gostr "x")),
                  (gostr "type", Jval.str (gostr ""))])

/-- Counterexample for C3 as stated: the request type "" is not in the
closed enumeration, yet the write does not fail — the adapter first defaults
an empty type to "fact", so the memory is persisted (with type "fact") and a
success response is sent. -/
theorem remember_validation_cex :
    validMemoryType (gostr "") = false ∧
    (unmarshalRememberArgs argsTypeEmpty).1.type = gostr "" ∧
    (handleRemember depsNoEmbed env0 none argsTypeEmpty []).1.rpcErr = none ∧
    (handleRemember depsNoEmbed env0 none argsTypeEmpty []).2 =
      [rememberBuilt argsTypeEmpty env0] ∧
    (rememberBuilt argsTypeEmpty env0).type = gostr "fact" := by
  refine ⟨by decide, by decide, rfl, rfl, by decide⟩

/-- Claim C3 (amended): handleRemember first defaults an empty type to
"fact"; then a request whose content is empty or whose defaulted type is not
in the closed enumeration fails with ValidationError, surfaced as a -32000
protocol error, and nothing is persisted; any other request persists the
record (up to the later best-effort embedding field) and the success
response carries its assigned id. -/
theorem remember_validation (d : Deps) (env : CallEnv) (rid : GoId)
    (args : RawMsg) (st : StoreState) :
    ((unmarshalRememberArgs args).1.content = [] ∨
        validMemoryType (rememberEffType (unmarshalRememberArgs args).1) = false →
      handleRemember d env rid args st =
        (sendError rid (-32000) (failedSaveMsg StoreErr.validation), st)) ∧
    ((unmarshalRememberArgs args).1.content ≠ [] →
      validMemoryType (rememberEffType (unmarshalRememberArgs args).1) = true →
      (handleRemember d env rid args st).1 =
        sendResult rid (RespPayload.toolText (ToolText.remembered
          (unmarshalRememberArgs args).1.content
          (rememberEffType (unmarshalRememberArgs args).1) env.freshId)) ∧
      ∃ m', m' ∈ (handleRemember d env rid args st).2 ∧
        { m' with embedding := none } = rememberBuilt args env) := by
  constructor
  · intro h
    have hc : CreateMemory (rememberBuilt args env) st =
        Except.error StoreErr.validation := by
      rcases h with h | h
      · have h' : (rememberBuilt args env).content.isEmpty = true := by
          show (unmarshalRememberArgs args).1.content.isEmpty = true
          rw [h]
          rfl
        simp [CreateMemory, h']
      · have h' : validMemoryType (rememberBuilt args env).type = false := h
        simp [CreateMemory, h']
    simp only [handleRemember, hc]
  · intro hcne hv
    have h1 : (rememberBuilt args env).content.isEmpty = false := by
      show (unmarshalRememberArgs args).1.content.isEmpty = false
      cases hc : (unmarshalRememberArgs args).1.content with
      | nil => exact absurd hc hcne
      | cons a t => rfl
    have hv' : validMemoryType (rememberBuilt args env).type = true := hv
    have hOk : CreateMemory (rememberBuilt args env) st =
        Except.ok (st ++ [rememberBuilt args env]) := by
      simp [CreateMemory, h1, hv']
    refine ⟨?_, ?_⟩
    · simp only [handleRemember, hOk]
      rfl
    · rcases hE : d.embed (rememberBuilt args env).content with e | o
      · refine ⟨rememberBuilt args env, ?_, rfl⟩
        simp [handleRemember, hOk, hE]
      · cases o with
        | none =>
            refine ⟨rememberBuilt args env, ?_, rfl⟩
            simp [handleRemember, hOk, hE]
        | some v =>
            have hAny : ((st ++ [rememberBuilt args env]).any
                fun x => x.id == (rememberBuilt args env).id) = true := by
              simp
            refine ⟨{ rememberBuilt args env with embedding := some v }, ?_, rfl⟩
            simp only [handleRemember, hOk, hE, UpdateMemoryEmbedding, hAny,
              if_true]
            refine List.mem_map.mpr ⟨rememberBuilt args env, by simp, ?_⟩
            simp

/-- Witness for C3 (amended) at an empty content (rejected, nothing stored)
and at the content "x" with omitted type (persisted as "fact"). -/
theorem remember_validation_witness :
    handleRemember depsNoEmbed env0 none (some (Jval.obj [])) [] =
      (sendError none (-32000) (failedSaveMsg StoreErr.validation), []) ∧
    ((handleRemember depsNoEmbed env0 none argsContentX []).1 =
        sendResult none (RespPayload.toolText (ToolText.remembered
          (unmarshalRememberArgs argsContentX).1.content
          (rememberEffType (unmarshalRememberArgs argsContentX).1) env0.freshId)) ∧
      ∃ m', m' ∈ (handleRemember depsNoEmbed env0 none argsContentX []).2 ∧
        { m' with embedding := none } = rememberBuilt argsContentX env0) :=
  ⟨(remember_validation depsNoEmbed env0 none (some (Jval.obj [])) []).1
     (Or.inl rfl),
   (remember_validation depsNoEmbed env0 none argsContentX []).2
     (by decide) (by decide)⟩

/-- A recall argument payload whose query member is a well-typed string but
whose limit member is ill-typed (a string where an int is expected). -/
def argsIllTyped : RawMsg :=
  some (Jval.obj [(gostr "query", Jval.str (gostr "x")),
                  (gostr "limit", Jval.str (gostr "y"))])

/-- Counterexample for C9 as stated: for these ill-typed arguments the
decode does fail, yet the adapter does not proceed with zero-valued
arguments — the well-typed query member survives (Go's Unmarshal fills what
it can before reporting the type error), and the recall runs with the query
"x", not with the empty query. -/
theorem args_decode_zero_cex :
    (unmarshalRecallArgs argsIllTyped).2 = true ∧
    (unmarshalRecallArgs argsIllTyped).1 ≠
      { query := [], limit := 0, semantic := false } ∧
    (unmarshalRecallArgs argsIllTyped).1.query = gostr "x" ∧
    (handleRecall depsNoEmbed none argsIllTyped []).result =
      some (RespPayload.toolText (ToolText.recallEmpty (gostr "x"))) ∧
    (handleRecall depsNoEmbed none argsIllTyped []).rpcErr = none := by
  refine ⟨by decide, by decide, by decide, rfl, rfl⟩

/-- Claim C9 (amended): a failing decode of recall or remember arguments is
ignored and never yields an invalid-params error — any error these handlers
send has code -32000 — and the operation proceeds with whatever fields
decoded successfully, zero values for the rest; in particular syntactically
malformed argument bytes behave exactly like an empty-object payload (all
fields zero-valued). -/
theorem args_decode_lenient (d : Deps) (env : CallEnv) (rid : GoId)
    (args : RawMsg) (st : StoreState) :
    (∀ e, (handleRecall d rid args st).rpcErr = some e → e.code = -32000) ∧
    (∀ e, (handleRemember d env rid args st).1.rpcErr = some e →
      e.code = -32000) ∧
    handleRecall d rid none st = handleRecall d rid (some (Jval.obj [])) st ∧
    handleRemember d env rid none st =
      handleRemember d env rid (some (Jval.obj [])) st := by
  refine ⟨?_, ?_, rfl, rfl⟩
  · intro e he
    simp only [handleRecall] at he
    split at he
    · rw [← Option.some.inj he]
    · split at he <;> exact Option.noConfusion he
  · intro e he
    simp only [handleRemember] at he
    split at he
    · rw [← Option.some.inj he]
    · exact Option.noConfusion he

/-- Witness for C9 at an empty-query recall whose store error is surfaced. -/
theorem args_decode_lenient_witness :
    (RPCError.mk (-32000) (errMsg StoreErr.invalidQuery)).code = -32000 :=
  (args_decode_lenient depsNoEmbed env0 none (some (Jval.obj [])) []).1
    { code := -32000, message := errMsg StoreErr.invalidQuery } rfl
